import Mathlib

/-!
Verification of `facepy/graph_api.py` (class `GraphAPI`).

The module is a thin client for the Facebook Graph API.  We give a shallow
embedding of its data model and operations:

* Python values produced by `json.loads` (plus `None`) become the inductive
  type `Py`; Python dicts are association lists in insertion order, and the
  dict operations (`d[k]`, `d[k] = v`, `d.update(u)`) are modelled by
  `dictGet`, `dictSet` and `dict_update`.
* `urlparse.parse_qs` and the query component of `urlparse.urlparse` are
  modelled character by character (`parse_qsl`, `parse_qs`, `url_query`);
  `urllib.urlencode` is modelled up to percent-escaping: each value is
  stringified with Python's `str()` (`pyRepr`/`pyStr`), but the final
  percent-escaping of the resulting text, and the percent-decoding performed
  by `parse_qs`, are not modelled (inputs are assumed to contain no
  percent-escapes; the plus-to-space replacement of `parse_qsl` is modelled).
* The response body handed to `GraphAPI._parse` is either raw text that is
  not valid JSON (`Body.invalid`) or the decoded value (`Body.valid`).
* Raising is explicit: `ParseResult`/`CallResult` distinguish a returned
  value, a raised `APIError`, a raised `ValueError` and the uncaught
  `KeyError`/`TypeError` that `data['error']['message']` produces when the
  error envelope is malformed.
* The mutable default argument of `_query` is modelled by threading the
  shared dict explicitly: `GraphAPI_delete` receives the current contents of
  the shared default dict and returns its contents after the call
  (`query_mutated_data` is exactly the in-place mutation `_query` applies to
  its `data` argument).
-/

namespace Facepy

/-- Python values as produced by `json.loads`, together with Python `None`
(JSON `null` decodes to `None`, and `None` is also what a function returns
when it falls off the end). -/
inductive Py where
  | none
  | bool (b : Bool)
  | int (n : Int)
  | str (s : String)
  | list (xs : List Py)
  | dict (entries : List (String × Py))

/-- Python truthiness, used by `if self.oauth_token:` in `_query`. -/
def pyTruthy : Py → Bool
  | .none => false
  | .bool b => b
  | .int n => n != 0
  | .str s => s != ""
  | .list xs => !xs.isEmpty
  | .dict es => !es.isEmpty

/-- The test `type(item) in (str, unicode)` from `_query`. -/
def isPyStr : Py → Bool
  | .str _ => true
  | _ => false

/-- Lookup `d[k]` / `k in d` in a Python dict modelled as an association
list (Python dict keys are unique, so the first match is the value). -/
def dictGet : List (String × Py) → String → Option Py
  | [], _ => Option.none
  | p :: rest, k => if p.1 = k then some p.2 else dictGet rest k

/-- Assignment `d[k] = v`: replace the value at an existing key in place,
otherwise append the new entry (Python dicts keep insertion order). -/
def dictSet (d : List (String × Py)) (k : String) (v : Py) : List (String × Py) :=
  if d.any (fun p => p.1 == k) then
    d.map (fun p => if p.1 = k then (k, v) else p)
  else d ++ [(k, v)]

/-- Python `d.update(upd)`: the entries of `upd` are written into `d` one
after the other. -/
def dict_update : List (String × Py) → List (String × Py) → List (String × Py)
  | d, [] => d
  | d, p :: rest => dict_update (dictSet d p.1 p.2) rest

/-- The keys of a dict, in insertion order. -/
def dictKeys (d : List (String × Py)) : List String := d.map Prod.fst

/-- Python `','.join(xs)` for a list of strings (the guard `isPyStr` has
already ensured every element is a string). -/
def strListJoin (xs : List Py) : String :=
  String.intercalate "," (xs.map (fun v => match v with | .str s => s | _ => ""))

/-- One step of the list-flattening loop of `_query`: a value that is a
list whose items are all strings becomes the comma-joined string; any other
value is untouched. -/
def flatten_value (v : Py) : Py :=
  match v with
  | .list xs => if xs.all isPyStr then .str (strListJoin xs) else .list xs
  | _ => v

/-- The loop `for key, value in data.items(): ...` of `_query`, which
rewrites list-of-string values in place. -/
def flatten_lists (d : List (String × Py)) : List (String × Py) :=
  d.map (fun p => (p.1, flatten_value p.2))

/-- Split a character list on a separator; `splitChars c "" = [[]]`, like
Python's `"".split(c) == ['']`. -/
def splitChars (sep : Char) (cs : List Char) : List (List Char) :=
  cs.foldr (fun c acc =>
    match acc with
    | cur :: rest => if c = sep then [] :: cur :: rest else (c :: cur) :: rest
    | [] => [[c]]) [[]]

/-- Split at the first occurrence of a separator (Python `s.split(sep, 1)`
when it finds the separator); `Option.none` when the separator is absent. -/
def splitFirstChar (sep : Char) : List Char → Option (List Char × List Char)
  | [] => Option.none
  | c :: cs =>
    if c = sep then some ([], cs)
    else
      match splitFirstChar sep cs with
      | some q => some (c :: q.1, q.2)
      | Option.none => Option.none

/-- The replacement of plus signs by spaces that `parse_qsl` applies to
names and values (`Char.ofNat 43` is the plus sign, `Char.ofNat 32` the
space). -/
def plusToSpace (cs : List Char) : List Char :=
  cs.map (fun c => if c = Char.ofNat 43 then Char.ofNat 32 else c)

/-- The query component that `urlparse.urlparse` extracts from the URL
`https://graph.facebook.com/%s % path`: everything after the first question
mark (`Char.ofNat 63`) of `path`, since the base URL itself has none.
Fragments are not modelled (Graph API paths carry none). -/
def url_query (path : String) : List Char :=
  match splitFirstChar (Char.ofNat 63) path.data with
  | some q => q.2
  | Option.none => []

/-- Python 2 `urlparse.parse_qsl` with its default flags: fields are split
on ampersands (`Char.ofNat 38`) and semicolons (`Char.ofNat 59`); an empty
field is skipped; a field without an equals sign (`Char.ofNat 61`) is
skipped; a field whose value is blank is skipped (`keep_blank_values` is
false); plus signs become spaces. Percent-decoding is not modelled. -/
def parse_qsl (qs : List Char) : List (String × String) :=
  (List.flatten ((splitChars (Char.ofNat 38) qs).map (splitChars (Char.ofNat 59)))).filterMap
    (fun f =>
      if f.isEmpty then Option.none
      else
        match splitFirstChar (Char.ofNat 61) f with
        | Option.none => Option.none
        | some nv =>
          if nv.2.isEmpty then Option.none
          else some (String.mk (plusToSpace nv.1), String.mk (plusToSpace nv.2)))

/-- The grouping step of `parse_qs`: append a value to the list already held
at the key, or start a fresh singleton list. -/
def pyAppendStr (x : Py) (v : String) : Py :=
  match x with
  | .list xs => .list (xs ++ [.str v])
  | other => other

/-- One insertion into the dict that `parse_qs` builds. -/
def qsAdd (d : List (String × Py)) (k : String) (v : String) : List (String × Py) :=
  if d.any (fun p => p.1 == k) then
    d.map (fun p => if p.1 = k then (p.1, pyAppendStr p.2 v) else p)
  else d ++ [(k, Py.list [.str v])]

/-- Python 2 `urlparse.parse_qs`: every value of the resulting dict is a
LIST of strings, even for a key that occurs once. -/
def parse_qs (qs : List Char) : List (String × Py) :=
  (parse_qsl qs).foldl (fun d p => qsAdd d p.1 p.2) []

mutual

/-- Python `repr` for the values of `Py`, as far as `urllib.urlencode`
needs it: `str(v)` of a list or dict prints its elements with `repr`, so a
list of strings prints as `['a', 'b']` (apostrophes written `\x27`).
String escaping inside `repr` is not modelled (strings are assumed to
contain no quotes or control characters). -/
def pyRepr : Py → String
  | .none => "None"
  | .bool true => "True"
  | .bool false => "False"
  | .int n => toString n
  | .str s => "\x27" ++ s ++ "\x27"
  | .list xs => "[" ++ pyReprList xs ++ "]"
  | .dict es => "\x7b" ++ pyReprDict es ++ "\x7d"

/-- Comma-separated `repr` of list elements. -/
def pyReprList : List Py → String
  | [] => ""
  | [x] => pyRepr x
  | x :: y :: rest => pyRepr x ++ ", " ++ pyReprList (y :: rest)

/-- Comma-separated `repr` of dict entries. -/
def pyReprDict : List (String × Py) → String
  | [] => ""
  | [(k, v)] => "\x27" ++ k ++ "\x27: " ++ pyRepr v
  | (k, v) :: q :: rest => "\x27" ++ k ++ "\x27: " ++ pyRepr v ++ ", " ++ pyReprDict (q :: rest)

end

/-- Python `str(v)`, as applied by `urllib.urlencode` to each value: a
top-level string stays itself, containers print via `repr` of their
elements. -/
def pyStr : Py → String
  | .str s => s
  | .none => "None"
  | .bool true => "True"
  | .bool false => "False"
  | .int n => toString n
  | .list xs => "[" ++ pyReprList xs ++ "]"
  | .dict es => "\x7b" ++ pyReprDict es ++ "\x7d"

/-- The key/value pairs that `urllib.urlencode(d)` (without `doseq`) writes
into the query string, with percent-escaping left out: each value is
stringified with Python's `str()`. -/
def urlencode_pairs (d : List (String × Py)) : List (String × String) :=
  d.map (fun p => (p.1, pyStr p.2))

/-- A response body: either text that is not valid JSON, or the value that
`json.loads` decodes it to. -/
inductive Body where
  | invalid (raw : String)
  | valid (decoded : Py)

/-- Outcome of `GraphAPI._parse`: a returned value, a raised
`APIError` (carrying `data['error']['message']`), or the uncaught
`KeyError`/`TypeError` that `data['error']['message']` raises when the
error envelope lacks that structure. -/
inductive ParseResult where
  | ret (v : Py)
  | raiseAPIError (message : Py)
  | raiseLookupError

/-- Outcome of a public method call: a returned value, a raised `APIError`,
a raised `ValueError` (from `search`'s type validation), or an uncaught
lookup error propagated from `_parse`. -/
inductive CallResult where
  | ret (v : Py)
  | apiError (message : Py)
  | valueError (message : String)
  | lookupError

/-- The HTTP request a call hands to `requests.request`: for GET/DELETE,
`params` is the merged query-parameter dict encoded into the URL; for POST
it is the body dict passed as `data=`. -/
structure Request where
  method : String
  path : String
  params : List (String × Py)

/-- `GraphAPI._parse`: decode failure returns the raw text; a decoded
boolean is returned as-is; a decoded dict raises `APIError` on an `error`
key (message `data['error']['message']`), else is unwrapped at a `data` key,
else returned whole; any other decoded value falls off the end of the
function and returns Python `None`. -/
def GraphAPI_parse (body : Body) : ParseResult :=
  match body with
  | .invalid raw => .ret (.str raw)
  | .valid v =>
    match v with
    | .bool b => .ret (.bool b)
    | .dict d =>
      match dictGet d "error" with
      | some e =>
        match e with
        | .dict ed =>
          match dictGet ed "message" with
          | some m => .raiseAPIError m
          | Option.none => .raiseLookupError
        | _ => .raiseLookupError
      | Option.none =>
        match dictGet d "data" with
        | some dv => .ret dv
        | Option.none => .ret (.dict d)
    | _ => .ret Py.none

/-- The in-place mutation `_query` applies to its `data` argument before
any request is made: list-of-string values are flattened to comma-joined
strings, then `data.update({'access_token': self.oauth_token})` runs when
the token is truthy.  This is also the state the shared mutable default
dict is left in after a call that used it. -/
def query_mutated_data (oauth_token : Py) (data : List (String × Py)) : List (String × Py) :=
  if pyTruthy oauth_token then dictSet (flatten_lists data) "access_token" oauth_token
  else flatten_lists data

/-- The parameter dict a `_query` call transmits: for GET/DELETE the dict
already present in the URL's query string is parsed with `parse_qs` and the
(mutated) `data` dict is merged on top with `url_params.update(data)`; for
any other method the mutated `data` dict itself is sent as the body. -/
def query_params (oauth_token : Py) (method path : String) (data : List (String × Py)) : List (String × Py) :=
  if method == "GET" || method == "DELETE" then
    dict_update (parse_qs (url_query path)) (query_mutated_data oauth_token data)
  else query_mutated_data oauth_token data

/-- Python truthiness of an optional string argument (`None` and the empty
string are falsy). -/
def optStrTruthy : Option String → Bool
  | Option.none => false
  | some s => s != ""

/-- The attribute value a Python optional-string argument is stored as. -/
def pyOfOptStr : Option String → Py
  | Option.none => Py.none
  | some s => .str s

/-- `GraphAPI.__init__`: when `oauth_token` is falsy and both
`signed_request` and `app_secret` are truthy, the token is extracted from
`parse_signed_request(signed_request, app_secret).get("oauth_token", None)`;
otherwise the explicit `oauth_token` argument is stored.  The external
parser is passed in as a function. -/
def GraphAPI_init (parse_signed_request : String → String → List (String × Py))
    (oauth_token signed_request app_secret : Option String) : Py :=
  match signed_request, app_secret with
  | some sr, some secret =>
    if !optStrTruthy oauth_token && sr != "" && secret != "" then
      (dictGet (parse_signed_request sr secret) "oauth_token").getD Py.none
    else pyOfOptStr oauth_token
  | _, _ => pyOfOptStr oauth_token

/-- Lift a `_parse` outcome to a call outcome. -/
def liftParse : ParseResult → CallResult
  | .ret v => .ret v
  | .raiseAPIError m => .apiError m
  | .raiseLookupError => .lookupError

/-- `GraphAPI.get`: issues a GET through `_query` (with a fresh options
dict built from the keyword arguments) and raises `APIError` when the
normalized response is exactly `False`. -/
def GraphAPI_get (oauth_token : Py) (path : String) (options : List (String × Py))
    (body : Body) : Request × CallResult :=
  (⟨"GET", path, query_params oauth_token "GET" path options⟩,
   match GraphAPI_parse body with
   | .raiseAPIError m => .apiError m
   | .raiseLookupError => .lookupError
   | .ret v =>
     match v with
     | .bool false => .apiError (.str ("Could not get \x22" ++ path ++ "\x22."))
     | _ => .ret v)

/-- `GraphAPI.post`: issues a POST through `_query` (with a fresh data dict
built from the keyword arguments) and raises `APIError` when the normalized
response is exactly `False`. -/
def GraphAPI_post (oauth_token : Py) (path : String) (data : List (String × Py))
    (body : Body) : Request × CallResult :=
  (⟨"POST", path, query_params oauth_token "POST" path data⟩,
   match GraphAPI_parse body with
   | .raiseAPIError m => .apiError m
   | .raiseLookupError => .lookupError
   | .ret v =>
     match v with
     | .bool false => .apiError (.str ("Could not post to \x22" ++ path ++ "\x22"))
     | _ => .ret v)

/-- `GraphAPI.delete`: calls `_query('DELETE', path)` with no `data`
argument, so `_query` operates on the shared mutable default dict.
`shared` is the contents of that dict at call time; the third component of
the result is its contents afterwards.  Raises `APIError` when the
normalized response is exactly `False`. -/
def GraphAPI_delete (oauth_token : Py) (path : String) (shared : List (String × Py))
    (body : Body) : Request × CallResult × List (String × Py) :=
  (⟨"DELETE", path, query_params oauth_token "DELETE" path shared⟩,
   (match GraphAPI_parse body with
    | .raiseAPIError m => .apiError m
    | .raiseLookupError => .lookupError
    | .ret v =>
      match v with
      | .bool false => .apiError (.str ("Could not delete \x22" ++ path ++ "\x22."))
      | _ => .ret v),
   query_mutated_data oauth_token shared)

/-- The fixed enumerated set of search types. -/
def SUPPORTED_TYPES : List String :=
  ["post", "user", "page", "event", "group", "place", "checkin"]

/-- `GraphAPI.search`: validates `type` against `SUPPORTED_TYPES` and raises
`ValueError` before any request when it is unsupported; otherwise builds
`dict({'q': term, 'type': type}, **options)` (caller options win on
collision) and issues `_query('GET', 'search', options)`, returning the
normalized response with no `False` check.  The first component is the
issued request, `Option.none` when validation failed before any request. -/
def GraphAPI_search (oauth_token : Py) (term ty : String) (options : List (String × Py))
    (body : Body) : Option Request × CallResult :=
  if ty ∈ SUPPORTED_TYPES then
    (some ⟨"GET", "search",
      query_params oauth_token "GET" "search"
        (dict_update [("q", .str term), ("type", .str ty)] options)⟩,
     liftParse (GraphAPI_parse body))
  else
    (Option.none,
     .valueError ("Unsupported type \x22" ++ ty ++ "\x22. Supported types are "
       ++ String.intercalate ", " SUPPORTED_TYPES))

/-- Modelled from the spec: the three-shape assertion about `_parse` (the
normalized result is a boolean, a mapping, or — exactly when the body is
not valid JSON — the raw text unchanged), written from the specification's
words so that it can be compared with the behaviour of `GraphAPI_parse`. -/
def specThreeShapes (b : Body) : Bool :=
  match GraphAPI_parse b with
  | .ret (.bool _) => true
  | .ret (.dict _) => true
  | .ret (.str s) =>
    match b with
    | .invalid raw => raw == s
    | .valid _ => false
  | _ => false

/-! Helper lemmas about the dict operations. -/

/-- Reading back the key just written by `dictSet`. -/
theorem dictGet_dictSet_self (d : List (String × Py)) (k : String) (v : Py) :
    dictGet (dictSet d k v) k = some v := by
  induction d with
  | nil => simp [dictSet, dictGet]
  | cons p rest ih =>
    by_cases hp : p.1 = k
    · simp [dictSet, dictGet, hp]
    · by_cases ha : rest.any (fun q => q.1 == k)
      · simp [dictSet, dictGet, hp, ha] at ih ⊢
        exact ih
      · simp [dictSet, dictGet, hp, ha] at ih ⊢
        exact ih

/-- The in-place branch of `dictSet` does not disturb other keys. -/
theorem dictGet_setmap (d : List (String × Py)) (k k2 : String) (v : Py) (h : k2 ≠ k) :
    dictGet (d.map (fun p => if p.1 = k then (k, v) else p)) k2 = dictGet d k2 := by
  induction d with
  | nil => rfl
  | cons p rest ih =>
    by_cases hp : p.1 = k
    · simp [dictGet, hp, Ne.symm h, ih]
    · simp [dictGet, hp, ih]

/-- The append branch of `dictSet` does not disturb other keys. -/
theorem dictGet_append_single (d : List (String × Py)) (k k2 : String) (v : Py)
    (h : k2 ≠ k) : dictGet (d ++ [(k, v)]) k2 = dictGet d k2 := by
  induction d with
  | nil => simp [dictGet, Ne.symm h]
  | cons p rest ih => by_cases hp : p.1 = k2 <;> simp [dictGet, hp, ih]

/-- Writing one key does not disturb a lookup at another key. -/
theorem dictGet_dictSet_ne (d : List (String × Py)) (k k2 : String) (v : Py)
    (h : k2 ≠ k) : dictGet (dictSet d k v) k2 = dictGet d k2 := by
  unfold dictSet
  by_cases ha : d.any (fun q => q.1 == k)
  · rw [if_pos ha]
    exact dictGet_setmap d k k2 v h
  · rw [if_neg ha]
    exact dictGet_append_single d k k2 v h

/-- Every entry of `dictSet d k v` whose key is `k` holds the value `v`. -/
theorem dictSet_keyVal (d : List (String × Py)) (k : String) (v : Py) :
    ∀ p ∈ dictSet d k v, p.1 = k → p.2 = v := by
  intro p hp hk
  unfold dictSet at hp
  by_cases ha : d.any (fun q => q.1 == k)
  · rw [if_pos ha] at hp
    obtain ⟨q, _, hqe⟩ := List.mem_map.mp hp
    by_cases h1 : q.1 = k
    · rw [if_pos h1] at hqe
      rw [← hqe]
    · rw [if_neg h1] at hqe
      rw [← hqe] at hk
      exact absurd hk h1
  · rw [if_neg ha] at hp
    rcases List.mem_append.mp hp with hp | hp
    · exfalso
      refine absurd (List.any_eq_true.mpr ⟨p, hp, ?_⟩) ha
      simp [hk]
    · simp at hp
      rw [hp]

/-- `dictSet d k v` contains an entry with key `k`. -/
theorem dictSet_keyMem (d : List (String × Py)) (k : String) (v : Py) :
    ∃ p ∈ dictSet d k v, p.1 = k := by
  unfold dictSet
  by_cases ha : d.any (fun q => q.1 == k)
  · rw [if_pos ha]
    obtain ⟨q, hq, hqk⟩ := List.any_eq_true.mp ha
    simp only [beq_iff_eq] at hqk
    exact ⟨(k, v), List.mem_map.mpr ⟨q, hq, by simp [hqk]⟩, rfl⟩
  · rw [if_neg ha]
    exact ⟨(k, v), List.mem_append.mpr (Or.inr (by simp)), rfl⟩

/-- Updating with entries that avoid a key leaves lookups at that key
unchanged. -/
theorem dict_update_nokey (upd : List (String × Py)) (base : List (String × Py))
    (k : String) (h : ∀ p ∈ upd, p.1 ≠ k) :
    dictGet (dict_update base upd) k = dictGet base k := by
  induction upd generalizing base with
  | nil => rfl
  | cons q rest ih =>
    have hq : q.1 ≠ k := h q (List.mem_cons_self _ _)
    rw [dict_update, ih _ (fun p hp => h p (List.mem_cons_of_mem _ hp))]
    exact dictGet_dictSet_ne _ _ _ _ (Ne.symm hq)

/-- After `base.update(upd)`, a key all of whose occurrences in `upd` carry
the value `v` (and which occurs at least once) reads back `v`. -/
theorem dict_update_get_of_all (upd : List (String × Py)) (k : String) (v : Py) :
    ∀ base : List (String × Py), (∀ p ∈ upd, p.1 = k → p.2 = v) →
    (∃ p ∈ upd, p.1 = k) → dictGet (dict_update base upd) k = some v := by
  induction upd with
  | nil =>
    intro base _ hmem
    obtain ⟨p, hp, _⟩ := hmem
    cases hp
  | cons q rest ih =>
    intro base hall hmem
    rw [dict_update]
    by_cases hr : ∃ p ∈ rest, p.1 = k
    · exact ih _ (fun p hp hk => hall p (List.mem_cons_of_mem _ hp) hk) hr
    · obtain ⟨p, hp, hk⟩ := hmem
      rcases List.mem_cons.mp hp with rfl | hp2
      · have hv : p.2 = v := hall p (List.mem_cons_self _ _) hk
        push_neg at hr
        rw [dict_update_nokey rest _ k hr, ← hk, ← hv]
        exact dictGet_dictSet_self _ _ _
      · exact absurd ⟨p, hp2, hk⟩ hr

/-- Lookup commutes with the list-flattening pass. -/
theorem dictGet_flatten (d : List (String × Py)) (k : String) :
    dictGet (flatten_lists d) k = (dictGet d k).map flatten_value := by
  induction d with
  | nil => rfl
  | cons p rest ih =>
    by_cases hp : p.1 = k
    · simp [flatten_lists, dictGet, hp]
    · simp [flatten_lists, dictGet, hp] at ih ⊢
      exact ih

/-- A lookup misses exactly when no entry carries the key. -/
theorem dictGet_eq_none (d : List (String × Py)) (k : String) :
    dictGet d k = Option.none ↔ ∀ p ∈ d, p.1 ≠ k := by
  induction d with
  | nil => simp [dictGet]
  | cons p rest ih => by_cases hp : p.1 = k <;> simp [dictGet, hp, ih]

/-- Flattening keeps the key sequence. -/
theorem dictKeys_flatten (d : List (String × Py)) :
    dictKeys (flatten_lists d) = dictKeys d := by
  induction d <;> simp_all [dictKeys, flatten_lists]

/-- The in-place branch of `dictSet` keeps the key sequence. -/
theorem dictKeys_setmap (d : List (String × Py)) (k : String) (v : Py) :
    dictKeys (d.map (fun p => if p.1 = k then (k, v) else p)) = dictKeys d := by
  induction d with
  | nil => rfl
  | cons p rest ih =>
    show Prod.fst (if p.1 = k then (k, v) else p)
        :: dictKeys (rest.map (fun p => if p.1 = k then (k, v) else p))
      = p.1 :: dictKeys rest
    rw [ih]
    by_cases hp : p.1 = k
    · rw [if_pos hp, hp]
    · rw [if_neg hp]

/-- `dictSet` preserves key uniqueness. -/
theorem dictKeys_dictSet_nodup (d : List (String × Py)) (k : String) (v : Py)
    (h : (dictKeys d).Nodup) : (dictKeys (dictSet d k v)).Nodup := by
  unfold dictSet
  by_cases ha : d.any (fun q => q.1 == k)
  · rw [if_pos ha, dictKeys_setmap]
    exact h
  · rw [if_neg ha]
    have hk : k ∉ dictKeys d := by
      intro hmem
      obtain ⟨p, hp, hpk⟩ := List.mem_map.mp hmem
      exact absurd (List.any_eq_true.mpr ⟨p, hp, by simp [hpk]⟩) ha
    show (dictKeys (d ++ [(k, v)])).Nodup
    unfold dictKeys
    rw [List.map_append]
    refine List.Nodup.append h (List.nodup_singleton _) ?_
    intro a had hak
    simp only [List.map_cons, List.map_nil, List.mem_singleton] at hak
    subst hak
    exact hk had

/-- When the update dict has unique keys, a key it defines reads back its
value after `base.update(upd)`. -/
theorem dict_update_get_of_nodup (upd : List (String × Py)) (k : String) (v : Py) :
    ∀ base : List (String × Py), (dictKeys upd).Nodup → dictGet upd k = some v →
    dictGet (dict_update base upd) k = some v := by
  induction upd with
  | nil =>
    intro base _ hget
    cases hget
  | cons q rest ih =>
    intro base hnd hget
    rw [dict_update]
    rw [dictGet] at hget
    have hnd2 : q.1 ∉ dictKeys rest ∧ (dictKeys rest).Nodup := by
      rw [show dictKeys (q :: rest) = q.1 :: dictKeys rest from rfl] at hnd
      exact List.nodup_cons.mp hnd
    by_cases hq : q.1 = k
    · rw [if_pos hq] at hget
      injection hget with hv
      have hkn : ∀ p ∈ rest, p.1 ≠ k := by
        intro p hp hpk
        refine hnd2.1 ?_
        rw [hq, ← hpk]
        exact List.mem_map.mpr ⟨p, hp, rfl⟩
      rw [dict_update_nokey rest _ k hkn, ← hq, ← hv]
      exact dictGet_dictSet_self _ _ _
    · rw [if_neg hq] at hget
      exact ih _ hnd2.2 hget

/-- Unwrapping the strings that were wrapped into `Py.str` gives them back. -/
theorem map_extract_str (ss : List String) :
    (ss.map Py.str).map (fun v => match v with | Py.str s => s | _ => "") = ss := by
  induction ss with
  | nil => rfl
  | cons a tl ih =>
    simp only [List.map_cons]
    rw [ih]

/-- Flattening a list of strings yields the comma-joined string. -/
theorem flatten_value_map_str (ss : List String) :
    flatten_value (.list (ss.map Py.str)) = .str (String.intercalate "," ss) := by
  have hall : (ss.map Py.str).all isPyStr = true := by
    induction ss <;> simp_all [isPyStr]
  simp only [flatten_value, hall, if_true, strListJoin]
  rw [map_extract_str]

/-- A nonempty token string is truthy. -/
theorem pyTruthy_str (t : String) (h : t ≠ "") : pyTruthy (.str t) = true := by
  simp [pyTruthy, h]

/-- The transmitted parameters of any `_query` call by a client with a
truthy token bind `access_token` to the token. -/
theorem query_params_token (t : String) (ht : t ≠ "") (method path : String)
    (data : List (String × Py)) :
    dictGet (query_params (.str t) method path data) "access_token" = some (.str t) := by
  have htr : pyTruthy (.str t) = true := pyTruthy_str t ht
  unfold query_params query_mutated_data
  rw [htr]
  simp only [if_true]
  by_cases hm : (method == "GET" || method == "DELETE") = true
  · rw [if_pos hm]
    exact dict_update_get_of_all _ _ _ _
      (dictSet_keyVal _ _ _) (dictSet_keyMem _ _ _)
  · rw [if_neg hm]
    exact dictGet_dictSet_self _ _ _

/-! The claim theorems. -/

/-- Claim C1: for every client constructed with a non-empty token and every
call to `get`, `post`, `delete` or `search`, the transmitted parameter
mapping binds `access_token` to the client's token, even when the caller
supplies its own `access_token` parameter (the token is applied after the
caller data, so it wins on key collision). -/
theorem access_token_always_attached (t : String) (ht : t ≠ "")
    (gpath ppath dpath term ty : String)
    (gopts pdata shared sopts : List (String × Py)) (b : Body) (r : Request) :
    dictGet (GraphAPI_get (.str t) gpath gopts b).1.params "access_token" = some (.str t)
    ∧ dictGet (GraphAPI_post (.str t) ppath pdata b).1.params "access_token" = some (.str t)
    ∧ dictGet (GraphAPI_delete (.str t) dpath shared b).1.params "access_token" = some (.str t)
    ∧ ((GraphAPI_search (.str t) term ty sopts b).1 = some r →
        dictGet r.params "access_token" = some (.str t)) := by
  refine ⟨query_params_token t ht "GET" gpath gopts,
    query_params_token t ht "POST" ppath pdata,
    query_params_token t ht "DELETE" dpath shared, ?_⟩
  intro hr
  unfold GraphAPI_search at hr
  by_cases hty : ty ∈ SUPPORTED_TYPES
  · rw [if_pos hty] at hr
    injection hr with hr
    rw [← hr]
    exact query_params_token t ht "GET" "search"
      (dict_update [("q", .str term), ("type", .str ty)] sopts)
  · rw [if_neg hty] at hr
    cases hr

/-- Witness for C1: with token TOK and a caller-supplied access_token, the
transmitted value is still TOK. -/
theorem access_token_always_attached_witness :
    dictGet (GraphAPI_get (Py.str "TOK") "me" [("access_token", Py.str "evil")]
        (.valid (.bool true))).1.params "access_token" = some (Py.str "TOK")
    ∧ dictGet (GraphAPI_post (Py.str "TOK") "me" [("access_token", Py.str "evil")]
        (.valid (.bool true))).1.params "access_token" = some (Py.str "TOK") := by
  have h := access_token_always_attached "TOK" (by decide) "me" "me" "me" "x" "user"
    [("access_token", Py.str "evil")] [("access_token", Py.str "evil")] [] []
    (.valid (.bool true)) ⟨"GET", "search", []⟩
  exact ⟨h.1, h.2.1⟩

/-- Claim C2: on a decoded mapping, `_parse` raises `APIError` with message
`error.message` when the key `error` is present, else returns exactly the
value under `data` when that key is present, else returns the mapping
unchanged. -/
theorem parse_dict_branches (d1 ed d2 d3 : List (String × Py)) (m v : Py)
    (h1 : dictGet d1 "error" = some (.dict ed)) (h1m : dictGet ed "message" = some m)
    (h2e : dictGet d2 "error" = Option.none) (h2d : dictGet d2 "data" = some v)
    (h3e : dictGet d3 "error" = Option.none) (h3d : dictGet d3 "data" = Option.none) :
    GraphAPI_parse (.valid (.dict d1)) = .raiseAPIError m
    ∧ GraphAPI_parse (.valid (.dict d2)) = .ret v
    ∧ GraphAPI_parse (.valid (.dict d3)) = .ret (.dict d3) := by
  refine ⟨?_, ?_, ?_⟩ <;> simp [GraphAPI_parse, h1, h1m, h2e, h2d, h3e, h3d]

/-- Witness for C2 at concrete bodies (error envelope, data envelope with a
discarded sibling, plain mapping). -/
theorem parse_dict_branches_witness :
    GraphAPI_parse (.valid (.dict [("error", .dict [("message", .str "bad token")])]))
      = .raiseAPIError (.str "bad token")
    ∧ GraphAPI_parse (.valid (.dict [("data", .list [.int 1, .int 2, .int 3]),
        ("paging", .dict [])])) = .ret (.list [.int 1, .int 2, .int 3])
    ∧ GraphAPI_parse (.valid (.dict [("id", .str "1")])) = .ret (.dict [("id", .str "1")]) :=
  parse_dict_branches [("error", .dict [("message", .str "bad token")])]
    [("message", .str "bad token")]
    [("data", .list [.int 1, .int 2, .int 3]), ("paging", .dict [])]
    [("id", .str "1")]
    (.str "bad token") (.list [.int 1, .int 2, .int 3]) rfl rfl rfl rfl rfl rfl

/-- Claim C3: when the normalized response is exactly `False`, `get`, `post`
and `delete` raise `APIError`; when it is `True` they return `True`. -/
theorem false_raises_true_returns (tok : Py) (path : String)
    (opts pdata shared : List (String × Py)) :
    (GraphAPI_get tok path opts (.valid (.bool false))).2
        = .apiError (.str ("Could not get \x22" ++ path ++ "\x22."))
    ∧ (GraphAPI_post tok path pdata (.valid (.bool false))).2
        = .apiError (.str ("Could not post to \x22" ++ path ++ "\x22"))
    ∧ (GraphAPI_delete tok path shared (.valid (.bool false))).2.1
        = .apiError (.str ("Could not delete \x22" ++ path ++ "\x22."))
    ∧ (GraphAPI_get tok path opts (.valid (.bool true))).2 = .ret (.bool true)
    ∧ (GraphAPI_post tok path pdata (.valid (.bool true))).2 = .ret (.bool true)
    ∧ (GraphAPI_delete tok path shared (.valid (.bool true))).2.1 = .ret (.bool true) :=
  ⟨rfl, rfl, rfl, rfl, rfl, rfl⟩

/-- Counterexample to C4 as stated: the body `[1, 2, 3]` is valid JSON, yet
`_parse` returns Python `None`, which is none of the three claimed shapes
(boolean, mapping, raw text of an invalid body). -/
theorem parse_shape_claim_fails :
    specThreeShapes (.valid (.list [.int 1, .int 2, .int 3])) = false
    ∧ GraphAPI_parse (.valid (.list [.int 1, .int 2, .int 3])) = .ret Py.none :=
  ⟨rfl, rfl⟩

/-- Claim C4 as amended: `_parse` returns the raw text of an invalid body,
a decoded boolean, a plain mapping, the (arbitrary) value under a `data`
envelope, or Python `None` when the decoded value is neither a boolean nor
a mapping; on a mapping with an `error` key it raises instead. -/
theorem parse_result_shapes (b : Body) :
    (∃ s, b = .invalid s ∧ GraphAPI_parse b = .ret (.str s))
    ∨ (∃ bo, GraphAPI_parse b = .ret (.bool bo))
    ∨ (∃ d, b = .valid (.dict d) ∧ dictGet d "error" = Option.none
        ∧ dictGet d "data" = Option.none ∧ GraphAPI_parse b = .ret (.dict d))
    ∨ (∃ d dv, b = .valid (.dict d) ∧ dictGet d "data" = some dv
        ∧ GraphAPI_parse b = .ret dv)
    ∨ GraphAPI_parse b = .ret Py.none
    ∨ (∃ m, GraphAPI_parse b = .raiseAPIError m)
    ∨ GraphAPI_parse b = .raiseLookupError := by
  cases b with
  | invalid s => exact Or.inl ⟨s, rfl, rfl⟩
  | valid v =>
    cases v with
    | bool bo => exact Or.inr (Or.inl ⟨bo, rfl⟩)
    | dict d =>
      cases he : dictGet d "error" with
      | some e =>
        cases e with
        | dict ed =>
          cases hm : dictGet ed "message" with
          | some m =>
            exact Or.inr (Or.inr (Or.inr (Or.inr (Or.inr (Or.inl
              ⟨m, by simp [GraphAPI_parse, he, hm]⟩)))))
          | none =>
            exact Or.inr (Or.inr (Or.inr (Or.inr (Or.inr (Or.inr
              (by simp [GraphAPI_parse, he, hm]))))))
        | none =>
          exact Or.inr (Or.inr (Or.inr (Or.inr (Or.inr (Or.inr
            (by simp [GraphAPI_parse, he]))))))
        | bool eb =>
          exact Or.inr (Or.inr (Or.inr (Or.inr (Or.inr (Or.inr
            (by simp [GraphAPI_parse, he]))))))
        | int en =>
          exact Or.inr (Or.inr (Or.inr (Or.inr (Or.inr (Or.inr
            (by simp [GraphAPI_parse, he]))))))
        | str es =>
          exact Or.inr (Or.inr (Or.inr (Or.inr (Or.inr (Or.inr
            (by simp [GraphAPI_parse, he]))))))
        | list exs =>
          exact Or.inr (Or.inr (Or.inr (Or.inr (Or.inr (Or.inr
            (by simp [GraphAPI_parse, he]))))))
      | none =>
        cases hd : dictGet d "data" with
        | some dv =>
          exact Or.inr (Or.inr (Or.inr (Or.inl
            ⟨d, dv, rfl, hd, by simp [GraphAPI_parse, he, hd]⟩)))
        | none =>
          exact Or.inr (Or.inr (Or.inl
            ⟨d, rfl, he, hd, by simp [GraphAPI_parse, he, hd]⟩))
    | none => exact Or.inr (Or.inr (Or.inr (Or.inr (Or.inl rfl))))
    | int n => exact Or.inr (Or.inr (Or.inr (Or.inr (Or.inl rfl))))
    | str s => exact Or.inr (Or.inr (Or.inr (Or.inr (Or.inl rfl))))
    | list xs => exact Or.inr (Or.inr (Or.inr (Or.inr (Or.inl rfl))))

/-- Claim C5, behaviour at the failing input: for a GET whose path already
carries the query parameter `fields=name`, `parse_qs` wraps the value into
a singleton list and `urlencode` (without `doseq`) stringifies that list,
so the final URL transmits the Python repr `[\x27name\x27]` instead of the
original value `name`. -/
theorem path_query_values_list_wrapped :
    query_params Py.none "GET" "me?fields=name" [] = [("fields", Py.list [.str "name"])]
    ∧ urlencode_pairs (query_params Py.none "GET" "me?fields=name" [])
        = [("fields", "[\x27name\x27]")]
    ∧ ("[\x27name\x27]" : String) ≠ "name" :=
  ⟨rfl, rfl, by decide⟩

/-- Counterexample to C6 as stated: a caller-supplied `access_token` whose
value is a list of strings is flattened but then overridden by the client's
token, so the transmitted value is not the comma-joined string. -/
theorem flatten_overridden_by_token :
    dictGet (query_params (.str "T") "POST" "me"
        [("access_token", Py.list [.str "a", .str "b"])]) "access_token"
      = some (Py.str "T")
    ∧ Py.str "T" ≠ Py.str "a,b" :=
  ⟨rfl, by simp⟩

/-- Claim C6 as amended: a parameter whose value is a list of strings is
transmitted as the comma-joined string in order, for every key other than
`access_token` of an authenticated client (there the token override of C1
replaces it). -/
theorem list_values_comma_joined (tok : Py) (method path k : String)
    (data : List (String × Py)) (ss : List String)
    (hnd : (dictKeys data).Nodup)
    (hget : dictGet data k = some (.list (ss.map Py.str)))
    (hk : k ≠ "access_token" ∨ pyTruthy tok = false) :
    dictGet (query_params tok method path data) k
      = some (.str (String.intercalate "," ss)) := by
  have hflat : dictGet (flatten_lists data) k
      = some (.str (String.intercalate "," ss)) := by
    rw [dictGet_flatten, hget, Option.map_some', flatten_value_map_str]
  have hmut : dictGet (query_mutated_data tok data) k
      = some (.str (String.intercalate "," ss)) := by
    unfold query_mutated_data
    by_cases htr : pyTruthy tok = true
    · rw [if_pos htr]
      rcases hk with hk | hk
      · rw [dictGet_dictSet_ne _ _ _ _ hk]
        exact hflat
      · rw [htr] at hk
        cases hk
    · rw [if_neg htr]
      exact hflat
  have hmnd : (dictKeys (query_mutated_data tok data)).Nodup := by
    unfold query_mutated_data
    by_cases htr : pyTruthy tok = true
    · rw [if_pos htr]
      refine dictKeys_dictSet_nodup _ _ _ ?_
      rw [dictKeys_flatten]
      exact hnd
    · rw [if_neg htr]
      rw [dictKeys_flatten]
      exact hnd
  unfold query_params
  by_cases hm : (method == "GET" || method == "DELETE") = true
  · rw [if_pos hm]
    exact dict_update_get_of_nodup _ _ _ _ hmnd hmut
  · rw [if_neg hm]
    exact hmut

/-- Witness for the amended C6: the value `['a', 'b']` under the key `ids`
is transmitted as `a,b`. -/
theorem list_values_comma_joined_witness :
    dictGet (query_params Py.none "POST" "me" [("ids", Py.list [.str "a", .str "b"])]) "ids"
      = some (Py.str "a,b") :=
  list_values_comma_joined Py.none "POST" "me" "ids"
    [("ids", Py.list [.str "a", .str "b"])] ["a", "b"] (by decide) rfl (Or.inr rfl)

/-- Claim C7: `search` raises `ValueError` before any request when the type
is outside the fixed set (the outcome does not depend on any response), and
for a supported type raises no validation error and issues a GET to the
fixed path `search` with q and type merged into the options. -/
theorem search_validates_type (tok : Py) (term ty : String)
    (opts : List (String × Py)) (b b2 : Body) :
    (ty ∉ SUPPORTED_TYPES →
      (GraphAPI_search tok term ty opts b).1 = Option.none
      ∧ (GraphAPI_search tok term ty opts b).2
          = .valueError ("Unsupported type \x22" ++ ty ++ "\x22. Supported types are "
              ++ String.intercalate ", " SUPPORTED_TYPES)
      ∧ GraphAPI_search tok term ty opts b = GraphAPI_search tok term ty opts b2)
    ∧ (ty ∈ SUPPORTED_TYPES →
      (∀ m, (GraphAPI_search tok term ty opts b).2 ≠ .valueError m)
      ∧ (GraphAPI_search tok term ty opts b).1
          = some ⟨"GET", "search",
              query_params tok "GET" "search"
                (dict_update [("q", .str term), ("type", .str ty)] opts)⟩) := by
  constructor
  · intro h
    refine ⟨?_, ?_, ?_⟩ <;> simp [GraphAPI_search, h]
  · intro h
    constructor
    · intro m hm
      unfold GraphAPI_search at hm
      rw [if_pos h] at hm
      cases hp : GraphAPI_parse b <;> rw [hp] at hm <;> simp [liftParse] at hm
    · simp [GraphAPI_search, h]

/-- Witness for C7: an unsupported type issues no request; a supported one
issues the expected GET. -/
theorem search_validates_type_witness :
    (GraphAPI_search Py.none "x" "bogus" [] (.valid (.bool true))).1 = Option.none
    ∧ (GraphAPI_search Py.none "x" "user" [] (.valid (.bool true))).1
        = some ⟨"GET", "search",
            query_params Py.none "GET" "search"
              (dict_update [("q", .str "x"), ("type", .str "user")] [])⟩ :=
  ⟨((search_validates_type Py.none "x" "bogus" [] (.valid (.bool true))
      (.valid (.bool true))).1 (by decide)).1,
   ((search_validates_type Py.none "x" "user" [] (.valid (.bool true))
      (.valid (.bool true))).2 (by decide)).2⟩

/-- Claim C8: an explicit token always wins and the signed-request parser
is never consulted; the extraction path is taken exactly when the token is
absent and both the signed request and the secret are present; with
neither, construction succeeds with no token and requests carry no
`access_token` parameter. -/
theorem init_token_precedence (psr psr2 : String → String → List (String × Py))
    (t sr sec path : String) (opts : List (String × Py))
    (ht : t ≠ "") (hsr : sr ≠ "") (hsec : sec ≠ "")
    (hopts : dictGet opts "access_token" = Option.none)
    (hpath : dictGet (parse_qs (url_query path)) "access_token" = Option.none) :
    GraphAPI_init psr (some t) (some sr) (some sec) = .str t
    ∧ GraphAPI_init psr (some t) (some sr) (some sec)
        = GraphAPI_init psr2 (some t) (some sr) (some sec)
    ∧ GraphAPI_init psr Option.none (some sr) (some sec)
        = (dictGet (psr sr sec) "oauth_token").getD Py.none
    ∧ GraphAPI_init psr Option.none (some sr) Option.none = Py.none
    ∧ GraphAPI_init psr Option.none Option.none (some sec) = Py.none
    ∧ GraphAPI_init psr Option.none Option.none Option.none = Py.none
    ∧ dictGet (query_params Py.none "GET" path opts) "access_token" = Option.none
    ∧ dictGet (query_params Py.none "POST" path opts) "access_token" = Option.none := by
  have h1 : (t != "") = true := by simp [ht]
  have hflat : dictGet (flatten_lists opts) "access_token" = Option.none := by
    rw [dictGet_flatten, hopts]
    rfl
  refine ⟨?_, ?_, ?_, rfl, rfl, rfl, ?_, ?_⟩
  · simp [GraphAPI_init, optStrTruthy, pyOfOptStr, h1]
  · simp [GraphAPI_init, optStrTruthy, pyOfOptStr, h1]
  · simp [GraphAPI_init, optStrTruthy, hsr, hsec]
  · show dictGet (dict_update (parse_qs (url_query path))
      (query_mutated_data Py.none opts)) "access_token" = Option.none
    unfold query_mutated_data
    simp only [pyTruthy, Bool.false_eq_true, if_false]
    rw [dict_update_nokey _ _ _ ((dictGet_eq_none _ _).mp hflat)]
    exact hpath
  · show dictGet (query_mutated_data Py.none opts) "access_token" = Option.none
    unfold query_mutated_data
    simp only [pyTruthy, Bool.false_eq_true, if_false]
    exact hflat

/-- Witness for C8 with a concrete parser, token and path. -/
theorem init_token_precedence_witness :
    GraphAPI_init (fun _ _ => [("oauth_token", Py.str "EX")]) (some "T") (some "SR") (some "SEC")
      = Py.str "T"
    ∧ GraphAPI_init (fun _ _ => [("oauth_token", Py.str "EX")]) Option.none (some "SR") (some "SEC")
      = Py.str "EX"
    ∧ dictGet (query_params Py.none "GET" "me" []) "access_token" = Option.none := by
  have h := init_token_precedence (fun _ _ => [("oauth_token", Py.str "EX")])
    (fun _ _ => [("oauth_token", Py.str "EX")]) "T" "SR" "SEC" "me" []
    (by decide) (by decide) (by decide) rfl rfl
  exact ⟨h.1, h.2.2.1.trans rfl, h.2.2.2.2.2.2.1⟩

/-- Claim C9: `search` performs no `False` check on the shared query path,
so a normalized response of `false` is returned as `False` rather than
raising `APIError` — unlike `get` (shown for contrast). -/
theorem search_no_false_check (tok : Py) (term ty path : String)
    (opts : List (String × Py)) (h : ty ∈ SUPPORTED_TYPES) :
    (GraphAPI_search tok term ty opts (.valid (.bool false))).2 = .ret (.bool false)
    ∧ (GraphAPI_get tok path opts (.valid (.bool false))).2
        = .apiError (.str ("Could not get \x22" ++ path ++ "\x22.")) := by
  constructor
  · simp [GraphAPI_search, h, liftParse, GraphAPI_parse]
  · rfl

/-- Witness for C9 at type user. -/
theorem search_no_false_check_witness :
    (GraphAPI_search Py.none "x" "user" [] (.valid (.bool false))).2 = .ret (.bool false) :=
  (search_no_false_check Py.none "x" "user" "me" [] (by decide)).1

/-- Claim C10: `_query` mutates its `data` argument in place and `delete`
passes the shared mutable default dict, so after an authenticated `delete`
the shared dict contains the `access_token` entry, and the entry is still
there at the start of a later call that uses the default (shown with a
later unauthenticated call, which re-applies nothing). -/
theorem shared_default_retains_token (t dpath dpath2 : String) (ht : t ≠ "")
    (shared : List (String × Py)) (b b2 : Body) :
    dictGet (GraphAPI_delete (.str t) dpath shared b).2.2 "access_token" = some (.str t)
    ∧ dictGet (GraphAPI_delete Py.none dpath2
        (GraphAPI_delete (.str t) dpath shared b).2.2 b2).2.2 "access_token"
      = some (.str t) := by
  have htr : pyTruthy (.str t) = true := pyTruthy_str t ht
  have h1 : dictGet (query_mutated_data (.str t) shared) "access_token" = some (.str t) := by
    unfold query_mutated_data
    rw [if_pos htr]
    exact dictGet_dictSet_self _ _ _
  refine ⟨h1, ?_⟩
  show dictGet (query_mutated_data Py.none (query_mutated_data (.str t) shared))
    "access_token" = some (.str t)
  rw [show query_mutated_data Py.none (query_mutated_data (.str t) shared)
      = flatten_lists (query_mutated_data (.str t) shared) from rfl]
  rw [dictGet_flatten, h1]
  rfl

/-- Witness for C10 with token T and an initially empty shared dict. -/
theorem shared_default_retains_token_witness :
    dictGet (GraphAPI_delete (Py.str "T") "me" [] (.valid (.bool true))).2.2 "access_token"
      = some (Py.str "T")
    ∧ dictGet (GraphAPI_delete Py.none "you"
        (GraphAPI_delete (Py.str "T") "me" [] (.valid (.bool true))).2.2
        (.valid (.bool true))).2.2 "access_token" = some (Py.str "T") :=
  shared_default_retains_token "T" "me" "you" (by decide) [] (.valid (.bool true))
    (.valid (.bool true))

end Facepy
